import Mathlib

/-
Verification of the release-radar pipeline in `new_tracks.py`.

The Python module is shallowly embedded as executable Lean definitions:

* Calendar dates resolved from the catalog are a `Date` structure (year,
  month, day as `Nat`), compared lexicographically, exactly as Python
  `datetime.date` objects compare chronologically.
* `ReleaseRadar.get_threshold_date` works with `datetime.today()` and
  `timedelta`; it is embedded over proleptic Gregorian ordinals
  (`Int`, Python `date.toordinal`), where day 1 is Monday, Jan 1 of year 1,
  so Python `date.weekday()` is `(ordinal - 1) % 7`.
* `strptime` with the formats `%Y-%m-%d`, `%Y-%m`, `%Y` is embedded as an
  explicit parser returning `Option Date` (`none` models the `ValueError`
  raised on a non-matching string).  CPython matches `%Y` as exactly four
  digits and `%m`/`%d` as one or two digits, then validates ranges when the
  `date` object is constructed; `mkDate` performs the same validation.
* The album loop of `ReleaseRadar.get_new_tracks` (lines 334-377) becomes a
  fold `runGNT` over the flat album stream (the concatenation, in traversal
  order, of every artist's paginated album list), threading the state
  `(new_tracks, searched_ids, added_ids)` plus the Python local
  `release_date`, which leaks across loop iterations: an album whose
  `release_date_precision` matches no branch silently reuses the previous
  album's resolved date, and raises `NameError` if there is none.  The
  `sp.album` detail call is the environment parameter `fetchTracks`.
* Python's stable `sorted(key=k)` / `sorted(key=k, reverse=True)` become
  `List.mergeSort` with the key comparison, respectively the flipped key
  comparison (CPython's sort is stable; with `reverse=True` it orders keys
  descending while ties keep their original relative order).
* `str.lower` / `str.replace('"', '')` become `String.toLower` and a
  character filter (ASCII data throughout).
-/

/-- A calendar date as Python `datetime.date`: year, month, day. -/
structure Date where
  year : Nat
  month : Nat
  day : Nat
deriving DecidableEq, Repr

/-- Python `date` strict comparison `<` (chronological = lexicographic). -/
def dateLt (a b : Date) : Bool :=
  decide (a.year < b.year ∨ (a.year = b.year ∧
    (a.month < b.month ∨ (a.month = b.month ∧ a.day < b.day))))

/-- Python `date` comparison `<=` (chronological = lexicographic);
`release_date >= threshold` in the source is `dateLe threshold release_date`. -/
def dateLe (a b : Date) : Bool :=
  decide (a.year < b.year ∨ (a.year = b.year ∧
    (a.month < b.month ∨ (a.month = b.month ∧ a.day ≤ b.day))))

/-- Value of a decimal digit string (caller checks `isDigits`). -/
def digitsToNat (cs : List Char) : Nat :=
  cs.foldl (fun acc c => acc * 10 + (c.toNat - 48)) 0

/-- All characters are ASCII decimal digits and the string is nonempty. -/
def isDigits (cs : List Char) : Bool :=
  !cs.isEmpty && cs.all (fun c => c.isDigit)

/-- CPython `strptime` `%Y` directive: exactly four digits. -/
def parseYear4 (cs : List Char) : Option Nat :=
  if cs.length = 4 && isDigits cs then some (digitsToNat cs) else none

/-- CPython `strptime` `%m` directive: one or two digits, value 1..12. -/
def parseMonth2 (cs : List Char) : Option Nat :=
  if cs.length ≤ 2 && isDigits cs then
    let v := digitsToNat cs
    if 1 ≤ v ∧ v ≤ 12 then some v else none
  else none

/-- CPython `strptime` `%d` directive: one or two digits, value 1..31. -/
def parseDay2 (cs : List Char) : Option Nat :=
  if cs.length ≤ 2 && isDigits cs then
    let v := digitsToNat cs
    if 1 ≤ v ∧ v ≤ 31 then some v else none
  else none

/-- Gregorian leap-year rule used by `datetime`. -/
def isLeapYear (y : Nat) : Bool :=
  (y % 4 = 0 && y % 100 ≠ 0) || y % 400 = 0

/-- Number of days in a month, as validated by the `datetime.date` constructor. -/
def daysInMonth (y m : Nat) : Nat :=
  if m = 2 then (if isLeapYear y then 29 else 28)
  else if m = 4 ∨ m = 6 ∨ m = 9 ∨ m = 11 then 30
  else 31

/-- The `datetime.date` constructor: validates year, month and day ranges,
raising `ValueError` (`none`) otherwise. -/
def mkDate (y m d : Nat) : Option Date :=
  if 1 ≤ y ∧ y ≤ 9999 ∧ 1 ≤ m ∧ m ≤ 12 ∧ 1 ≤ d ∧ d ≤ daysInMonth y m then
    some ⟨y, m, d⟩
  else none

/-- `datetime.strptime(s, "%Y-%m-%d").date()` (line 348): `none` models the
`ValueError` raised when the string does not match the format. -/
def strptimeYMD (s : String) : Option Date :=
  match s.toList.splitOn '-' with
  | [ys, ms, ds] => do
    let y ← parseYear4 ys
    let m ← parseMonth2 ms
    let d ← parseDay2 ds
    mkDate y m d
  | _ => none

/-- `datetime.strptime(s, "%Y-%m").date()` (line 352): the day defaults to 1. -/
def strptimeYM (s : String) : Option Date :=
  match s.toList.splitOn '-' with
  | [ys, ms] => do
    let y ← parseYear4 ys
    let m ← parseMonth2 ms
    mkDate y m 1
  | _ => none

/-- `datetime.strptime(s, "%Y").date()` (line 356): month and day default to 1. -/
def strptimeY (s : String) : Option Date :=
  match s.toList.splitOn '-' with
  | [ys] => do
    let y ← parseYear4 ys
    mkDate y 1 1
  | _ => none

/-- Lines 345-356: resolve `release_date` from the release-date string and its
precision.  Outer `none` models a `ValueError` escaping from `strptime`
(aborting the run); `some none` means no branch matched the precision, so the
Python local `release_date` was not assigned by this album. -/
def resolve_release_date (release_date_str release_date_precision : String) :
    Option (Option Date) :=
  if release_date_precision = "day" then (strptimeYMD release_date_str).map some
  else if release_date_precision = "month" then (strptimeYM release_date_str).map some
  else if release_date_precision = "year" then (strptimeY release_date_str).map some
  else some none

/-- Python `str.replace('"', '')` on the free-text fields: removes every
double-quote character. -/
def stripQuotes (s : String) : String :=
  ⟨s.toList.filter (fun c => c ≠ '\"')⟩

/-- Python `str.lower()`: lowercase each character (ASCII data throughout;
this maps `Char.toLower` exactly as `String.toLower` does). -/
def lowerStr (s : String) : String :=
  ⟨s.toList.map Char.toLower⟩

/-- Python string comparison `<=`: lexicographic by code point, a proper
prefix compares smaller. -/
def listCharLe : List Char → List Char → Bool
  | [], _ => true
  | _ :: _, [] => false
  | a :: as, b :: bs => if a = b then listCharLe as bs else decide (a < b)

/-- Python `a <= b` on strings. -/
def strLe (a b : String) : Bool :=
  listCharLe a.toList b.toList

/-- Python substring test `needle in hay` on lists of characters. -/
def containsSub (needle : List Char) : List Char → Bool
  | [] => needle.isEmpty
  | c :: rest => needle.isPrefixOf (c :: rest) || containsSub needle rest

/-- Line 338: `"navid" in album["name"].lower()`. -/
def navidNamed (name : String) : Bool :=
  containsSub "navid".toList (lowerStr name).toList

/-- One track item of an album-detail response (`sp.album(...)["tracks"]["items"]`):
track name, first credited artist name, Spotify URL, track id. -/
structure TrackItem where
  name : String
  artistName : String
  url : String
  id : String
deriving DecidableEq, Repr

/-- One album item of `sp.artist_albums` (the fields the code reads). -/
structure Album where
  id : String
  name : String
  album_type : String
  release_date : String
  release_date_precision : String
deriving DecidableEq, Repr

/-- A row of the accumulated track list (`song_dict`, lines 367-375). -/
structure Song where
  title : String
  artist : String
  album : String
  album_type : String
  release_date : Date
  url : String
  id : String
deriving DecidableEq, Repr

/-- The loop state of `get_new_tracks` (line 308) plus the leaked Python
local `release_date`. -/
structure GNTState where
  new_tracks : List Song
  searched_ids : List String
  added_ids : List String
  last_release_date : Option Date
deriving DecidableEq, Repr

/-- The inner track loop (lines 362-376): for each track, `added_ids` gains the
track id when not already present, and the `song_dict` is appended to the
accumulated list unconditionally. -/
def expandAlbumTracks (album : Album) (release_date : Date)
    (tracks : List TrackItem) (added0 : List String) : List String × List Song :=
  tracks.foldl
    (fun acc track =>
      let added :=
        if acc.1.contains track.id then acc.1 else acc.1 ++ [track.id]
      let song : Song :=
        { title := stripQuotes track.name
          artist := stripQuotes track.artistName
          album := stripQuotes album.name
          album_type := album.album_type
          release_date := release_date
          url := track.url
          id := track.id }
      (added, acc.2 ++ [song]))
    (added0, [])

/-- One iteration of the album loop (lines 334-377).  `fetchTracks` is the
`sp.album(album_id)` detail call.  `Except.error` models an exception
aborting the run. -/
def processAlbum (fetchTracks : String → List TrackItem) (threshold : Date)
    (st : GNTState) (album : Album) : Except String GNTState :=
  if album.album_type = "compilation" then .ok st
  else if navidNamed album.name then .ok st
  else if st.searched_ids.contains album.id then .ok st
  else
    match resolve_release_date album.release_date album.release_date_precision with
    | none => .error "ValueError"
    | some assigned =>
      match (match assigned with | some d => some d | none => st.last_release_date) with
      | none => .error "NameError"
      | some release_date =>
        if dateLe threshold release_date then
          .ok { new_tracks := st.new_tracks ++
                  (expandAlbumTracks album release_date (fetchTracks album.id) st.added_ids).2
                searched_ids := st.searched_ids ++ [album.id]
                added_ids :=
                  (expandAlbumTracks album release_date (fetchTracks album.id) st.added_ids).1
                last_release_date := some release_date }
        else
          .ok { new_tracks := st.new_tracks
                searched_ids := st.searched_ids ++ [album.id]
                added_ids := st.added_ids
                last_release_date := some release_date }

/-- The whole album loop of `get_new_tracks`, run over the flat album stream
(the concatenation of every artist's paginated album list, in traversal
order), starting from empty accumulators (line 308). -/
def runGNT (fetchTracks : String → List TrackItem) (threshold : Date)
    (albums : List Album) : Except String GNTState :=
  albums.foldlM (processAlbum fetchTracks threshold) ⟨[], [], [], none⟩

/-- `ReleaseRadar.get_new_tracks`: the accumulated track list. -/
def get_new_tracks (fetchTracks : String → List TrackItem) (threshold : Date)
    (albums : List Album) : Except String (List Song) :=
  (runGNT fetchTracks threshold albums).map GNTState.new_tracks

/-- Python `date.weekday()` on a proleptic Gregorian ordinal:
0 = Monday .. 6 = Sunday (ordinal 1 is a Monday). -/
def weekday (ordinal : Int) : Int := (ordinal - 1) % 7

/-- Lines 215-223: the effective number of days searched back; `self.days` is
overwritten by the Friday-before-last offset when it is 0. -/
def effectiveDays (today days : Int) : Int :=
  if days = 0 then (weekday today - 4) % 7 + 7 else days

/-- `ReleaseRadar.get_threshold_date` (lines 207-229) over ordinals:
`today - timedelta(days=self.days)`. -/
def get_threshold_date (today days : Int) : Int :=
  today - effectiveDays today days

/-- First-pass sort key comparison of `sort_tracks` (line 406): the tuple
`(x["release_date"], x["artist"].lower())`, compared lexicographically. -/
def trackKeyLe (a b : Song) : Bool :=
  dateLt a.release_date b.release_date ||
    (decide (a.release_date = b.release_date) &&
      strLe (lowerStr a.artist) (lowerStr b.artist))

/-- Second-pass sort key comparison of `sort_tracks` (line 411):
`x["album_type"].lower()`, Python string order. -/
def albumTypeLe (a b : Song) : Bool :=
  strLe (lowerStr a.album_type) (lowerStr b.album_type)

/-- The two stable sorts of `sort_tracks` (lines 404-413): first by
`(release_date, artist.lower())` with `reverse=sort_reverse`, then by
`album_type.lower()` with `reverse=True`.  A Python stable sort with
`reverse=True` orders keys descending with ties keeping their original
relative order, i.e. `mergeSort` with the flipped key comparison. -/
def sortedTracksWith (sort_reverse : Bool) (tracks : List Song) : List Song :=
  let sorted_tracks :=
    List.mergeSort tracks
      (fun a b => if sort_reverse then trackKeyLe b a else trackKeyLe a b)
  List.mergeSort sorted_tracks (fun a b => albumTypeLe b a)

/-- `ReleaseRadar.sort_tracks` (lines 384-415): dispatch on
`self.sort_order.lower()`; any other mode returns the list unchanged. -/
def sort_tracks (sort_order : String) (tracks : List Song) : List Song :=
  if lowerStr sort_order = "ascending" then sortedTracksWith false tracks
  else if lowerStr sort_order = "descending" then sortedTracksWith true tracks
  else tracks

/-- One artist item of a genre-search result page (the fields read on
lines 254-258). -/
structure ArtistItem where
  name : String
  url : String
  id : String
deriving DecidableEq, Repr

/-- An entry of `self.artist_list` (lines 254-259). -/
structure Artist where
  name : String
  url : String
  id : String
deriving DecidableEq, Repr

/-- Line 255-258: build the artist dict, stripping quotes from the name. -/
def mkArtistRecord (it : ArtistItem) : Artist :=
  ⟨stripQuotes it.name, it.url, it.id⟩

/-- The pagination loop of `get_artists` (lines 246-264): consume result
pages of size 50; a page shorter than 50 is the last one consumed. -/
def collectArtistPages : List (List ArtistItem) → List ArtistItem
  | [] => []
  | p :: rest => if p.length < 50 then p else p ++ collectArtistPages rest

/-- The sort key comparison of line 269: `x["name"].lower()`. -/
def artistNameLe (a b : Artist) : Bool :=
  strLe (lowerStr a.name) (lowerStr b.name)

/-- `ReleaseRadar.get_artists` (lines 231-277): concatenate the consumed
pages, then overwrite `self.artist_list` with the case-insensitively sorted
list (line 269); that sorted list is written to the snapshot CSV and is also
the function's return value, hence the cohort used for traversal. -/
def get_artists (pages : List (List ArtistItem)) : List Artist :=
  List.mergeSort ((collectArtistPages pages).map mkArtistRecord) artistNameLe

/-- The rows written to the `"... Artists (Auto).csv"` snapshot
(lines 269-274): the same sorted `self.artist_list`. -/
def artists_snapshot_rows (pages : List (List ArtistItem)) : List Artist :=
  List.mergeSort ((collectArtistPages pages).map mkArtistRecord) artistNameLe

/-- Line 454: the track ids handed to `sp.playlist_replace_items`. -/
def update_playlist_track_ids (track_list : List Song) : List String :=
  track_list.map Song.id

/-- Observable side effects of the final phase of `main` (lines 152-157). -/
inductive Effect where
  | logInfo (msg : String)
  | writeCsv
  | replaceItems (track_ids : List String)
  | changeDetails
deriving DecidableEq, Repr

/-- `ReleaseRadar.update_csv` (lines 417-439): on an empty track list,
`self.track_list[0]` raises `IndexError`; otherwise the CSV is written. -/
def update_csv_effects (track_list : List Song) : Except String (List Effect) :=
  if track_list.length = 0 then .error "IndexError"
  else .ok [.writeCsv]

/-- `ReleaseRadar.update_playlist` (lines 441-468): with no `playlist_id`
configured it only logs and returns; otherwise it replaces the playlist
items and updates the playlist details. -/
def update_playlist_effects (has_playlist_id : Bool) (track_list : List Song) :
    List Effect :=
  if has_playlist_id then
    [.replaceItems (update_playlist_track_ids track_list), .changeDetails]
  else []

/-- The final phase of `main` (lines 152-157): when the sorted track list is
empty, only an info-level message is logged; otherwise the CSV is updated
and, unless `dry_run`, the playlist is updated. -/
def main_finalize (dry_run has_playlist_id : Bool) (track_list : List Song) :
    Except String (List Effect) :=
  if track_list.length = 0 then
    .ok [.logInfo "No new tracks found. Playlist not updated."]
  else do
    let csvE ← update_csv_effects track_list
    if dry_run then .ok csvE
    else .ok (csvE ++ update_playlist_effects has_playlist_id track_list)

/-- Fields determine a `Date`. -/
theorem dateEqIff (a b : Date) :
    a = b ↔ a.year = b.year ∧ a.month = b.month ∧ a.day = b.day := by
  cases a
  cases b
  simp [Date.mk.injEq]

theorem listCharLe_refl (l : List Char) : listCharLe l l = true := by
  induction l with
  | nil => rfl
  | cons c t ih => simp [listCharLe, ih]

theorem listCharLe_total (a b : List Char) :
    listCharLe a b = true ∨ listCharLe b a = true := by
  induction a generalizing b with
  | nil => left; rfl
  | cons c t ih =>
    cases b with
    | nil => right; rfl
    | cons d u =>
      by_cases h : c = d
      · subst h
        simpa [listCharLe] using ih u
      · have h' : d ≠ c := fun e => h e.symm
        simp only [listCharLe, if_neg h, if_neg h', decide_eq_true_eq]
        exact lt_or_gt_of_ne h

theorem listCharLe_trans (a b c : List Char) (h1 : listCharLe a b = true)
    (h2 : listCharLe b c = true) : listCharLe a c = true := by
  induction a generalizing b c with
  | nil => rfl
  | cons x xs ih =>
    cases b with
    | nil => simp [listCharLe] at h1
    | cons y ys =>
      cases c with
      | nil => simp [listCharLe] at h2
      | cons z zs =>
        by_cases hxy : x = y
        · subst hxy
          by_cases hxz : x = z
          · subst hxz
            simp only [listCharLe, if_pos rfl] at h1 h2 ⊢
            exact ih ys zs h1 h2
          · simp only [listCharLe, if_pos rfl] at h1
            simpa [listCharLe, hxz] using h2
          -- x = y, so h2 decides the head comparison of the result
        · by_cases hyz : y = z
          · subst hyz
            simpa [listCharLe, hxy] using h1
          · simp only [listCharLe, if_neg hxy, decide_eq_true_eq] at h1
            simp only [listCharLe, if_neg hyz, decide_eq_true_eq] at h2
            have hxz : x < z := lt_trans h1 h2
            simp [listCharLe, ne_of_lt hxz, hxz]

theorem strLe_refl (a : String) : strLe a a = true := listCharLe_refl _

theorem strLe_total (a b : String) : strLe a b = true ∨ strLe b a = true :=
  listCharLe_total _ _

theorem strLe_trans (a b c : String) (h1 : strLe a b = true)
    (h2 : strLe b c = true) : strLe a c = true :=
  listCharLe_trans _ _ _ h1 h2

theorem trackKeyLe_refl (a : Song) : trackKeyLe a a = true := by
  simp [trackKeyLe, strLe_refl]

theorem trackKeyLe_total (a b : Song) :
    trackKeyLe a b = true ∨ trackKeyLe b a = true := by
  simp only [trackKeyLe, dateLt, Bool.or_eq_true, Bool.and_eq_true,
    decide_eq_true_eq]
  by_cases hd : a.release_date = b.release_date
  · rcases strLe_total (lowerStr a.artist) (lowerStr b.artist) with h | h
    · exact Or.inl (Or.inr ⟨hd, h⟩)
    · exact Or.inr (Or.inr ⟨hd.symm, h⟩)
  · rw [dateEqIff] at hd
    have : (a.release_date.year < b.release_date.year ∨
        (a.release_date.year = b.release_date.year ∧
          (a.release_date.month < b.release_date.month ∨
            (a.release_date.month = b.release_date.month ∧
              a.release_date.day < b.release_date.day)))) ∨
        (b.release_date.year < a.release_date.year ∨
        (b.release_date.year = a.release_date.year ∧
          (b.release_date.month < a.release_date.month ∨
            (b.release_date.month = a.release_date.month ∧
              b.release_date.day < a.release_date.day)))) := by omega
    rcases this with h | h
    · exact Or.inl (Or.inl h)
    · exact Or.inr (Or.inl h)

theorem trackKeyLe_trans (a b c : Song) (h1 : trackKeyLe a b = true)
    (h2 : trackKeyLe b c = true) : trackKeyLe a c = true := by
  simp only [trackKeyLe, dateLt, Bool.or_eq_true, Bool.and_eq_true,
    decide_eq_true_eq] at h1 h2 ⊢
  rcases h1 with h1 | ⟨he1, hs1⟩
  · rcases h2 with h2 | ⟨he2, hs2⟩
    · left; omega
    · rw [dateEqIff] at he2; left; omega
  · rcases h2 with h2 | ⟨he2, hs2⟩
    · rw [dateEqIff] at he1; left; omega
    · exact Or.inr ⟨he1.trans he2, strLe_trans _ _ _ hs1 hs2⟩

theorem albumTypeLe_refl (a : Song) : albumTypeLe a a = true := strLe_refl _

theorem albumTypeLe_total (a b : Song) :
    albumTypeLe a b = true ∨ albumTypeLe b a = true := strLe_total _ _

theorem albumTypeLe_trans (a b c : Song) (h1 : albumTypeLe a b = true)
    (h2 : albumTypeLe b c = true) : albumTypeLe a c = true :=
  strLe_trans _ _ _ h1 h2

theorem artistNameLe_total (a b : Artist) :
    artistNameLe a b = true ∨ artistNameLe b a = true := strLe_total _ _

theorem artistNameLe_trans (a b c : Artist) (h1 : artistNameLe a b = true)
    (h2 : artistNameLe b c = true) : artistNameLe a c = true :=
  strLe_trans _ _ _ h1 h2

theorem dateLe_refl (a : Date) : dateLe a a = true := by simp [dateLe]

/-- A stable sort of an already `le1`-sorted list by `le2` is sorted by the
lexicographic combination: later elements are `le2`-greater-or-tied, and tied
elements keep their `le1` order.  This is the stability fact needed about the
second pass of `sort_tracks`. -/
theorem pairwise_stable_mergeSort {α : Type} (le1 le2 : α → α → Bool)
    (trans2 : ∀ a b c : α, le2 a b = true → le2 b c = true → le2 a c = true)
    (total2 : ∀ a b : α, le2 a b = true ∨ le2 b a = true)
    (refl1 : ∀ a : α, le1 a a = true)
    (l : List α) (h : l.Pairwise (fun a b => le1 a b = true)) :
    (List.mergeSort l le2).Pairwise
      (fun a b => le2 a b = true ∧ (le2 b a = true → le1 a b = true)) := by
  have hmap : (List.mergeSort l.enum (List.enumLE le2)).map (fun p => p.2) =
      List.mergeSort l le2 := List.mergeSort_enum
  rw [← hmap, List.pairwise_map]
  have htrans2 : ∀ a b c : α, le2 a b → le2 b c → le2 a c := by
    intro a b c hab hbc
    exact trans2 a b c hab hbc
  have htotal2 : ∀ a b : α, le2 a b || le2 b a := by
    intro a b
    rcases total2 a b with h' | h' <;> simp [h']
  have hs := List.sorted_mergeSort
    (List.enumLE_trans htrans2) (List.enumLE_total htotal2) l.enum
  refine hs.imp_of_mem ?_
  intro p q hp hq hle
  rw [List.mem_mergeSort] at hp hq
  obtain ⟨i, a⟩ := p
  obtain ⟨j, b⟩ := q
  rw [List.mk_mem_enum_iff_getElem?] at hp hq
  simp only [List.enumLE] at hle
  cases hab : le2 a b with
  | false => rw [hab] at hle; simp at hle
  | true =>
    refine ⟨rfl, ?_⟩
    intro hba
    rw [hab, hba] at hle
    simp only [if_pos rfl] at hle
    have hij : i ≤ j := by simpa using hle
    obtain ⟨hi, hia⟩ := List.getElem?_eq_some_iff.mp hp
    obtain ⟨hj, hjb⟩ := List.getElem?_eq_some_iff.mp hq
    rcases Nat.eq_or_lt_of_le hij with heq | hlt
    · subst heq
      rw [hia] at hjb
      subst hjb
      exact refl1 a
    · have := List.pairwise_iff_getElem.mp h i j hi hj hlt
      rw [hia, hjb] at this
      exact this

/-- The two-pass sort: later tracks have an `albumTypeLe`-smaller-or-tied
type key, and type-tied tracks are in first-pass key order. -/
theorem sortedTracksWith_pairwise (rev : Bool) (tracks : List Song) :
    (sortedTracksWith rev tracks).Pairwise (fun a b =>
      albumTypeLe b a = true ∧
        (albumTypeLe a b = true →
          (if rev then trackKeyLe b a else trackKeyLe a b) = true)) := by
  unfold sortedTracksWith
  apply pairwise_stable_mergeSort
  · intro a b c h1 h2
    exact albumTypeLe_trans c b a h2 h1
  · intro a b
    rcases albumTypeLe_total b a with h | h
    · exact Or.inl h
    · exact Or.inr h
  · intro a
    cases rev <;> simp [trackKeyLe_refl]
  · apply List.sorted_mergeSort
    · intro a b c h1 h2
      cases rev
      · exact trackKeyLe_trans a b c h1 h2
      · exact trackKeyLe_trans c b a h2 h1
    · intro a b
      cases rev
      · rcases trackKeyLe_total a b with h | h <;> simp [h]
      · rcases trackKeyLe_total b a with h | h <;> simp [h]

/-- The first-pass key order implies date order. -/
theorem trackKeyLe_dateLe (a b : Song) (h : trackKeyLe a b = true) :
    dateLe a.release_date b.release_date = true := by
  simp only [trackKeyLe, dateLt, Bool.or_eq_true, Bool.and_eq_true,
    decide_eq_true_eq] at h
  simp only [dateLe, decide_eq_true_eq]
  rcases h with h | ⟨he, _⟩
  · omega
  · rw [dateEqIff] at he; omega

/-- C3: for every input track list and each sort mode in
{ascending, descending}, the sorted output never places an album-type track
before a single-type track, and within each album-type group (same
lowercased type string) the first-pass keys — release date, ties broken by
lowercased artist name — and hence the release dates are monotonic in the
requested direction. -/
theorem sort_tracks_type_groups_and_dates (sort_order : String) (tracks : List Song)
    (hmode : sort_order = "ascending" ∨ sort_order = "descending") :
    ((sort_tracks sort_order tracks).Pairwise (fun a b =>
      ¬(a.album_type = "album" ∧ b.album_type = "single"))) ∧
    ((sort_tracks sort_order tracks).Pairwise (fun a b =>
      lowerStr a.album_type = lowerStr b.album_type →
        (if sort_order = "ascending" then trackKeyLe a b else trackKeyLe b a) = true)) ∧
    ((sort_tracks sort_order tracks).Pairwise (fun a b =>
      lowerStr a.album_type = lowerStr b.album_type →
        (if sort_order = "ascending" then dateLe a.release_date b.release_date
         else dateLe b.release_date a.release_date) = true)) := by
  have main : ∀ rev : Bool,
      ((sortedTracksWith rev tracks).Pairwise (fun a b =>
        ¬(a.album_type = "album" ∧ b.album_type = "single"))) ∧
      ((sortedTracksWith rev tracks).Pairwise (fun a b =>
        lowerStr a.album_type = lowerStr b.album_type →
          (if rev then trackKeyLe b a else trackKeyLe a b) = true)) := by
    intro rev
    have hp := sortedTracksWith_pairwise rev tracks
    constructor
    · refine hp.imp ?_
      intro a b hr
      obtain ⟨hba, _⟩ := hr
      rintro ⟨ha, hb⟩
      simp only [albumTypeLe, ha, hb] at hba
      exact absurd hba (by decide)
    · refine hp.imp ?_
      intro a b hr htie
      obtain ⟨_, himp⟩ := hr
      apply himp
      simp only [albumTypeLe, htie]
      exact strLe_refl _
  rcases hmode with h | h
  · subst h
    have e : sort_tracks "ascending" tracks = sortedTracksWith false tracks := rfl
    rw [e]
    obtain ⟨m1, m2⟩ := main false
    refine ⟨m1, m2, ?_⟩
    refine m2.imp ?_
    intro a b hr htie
    exact trackKeyLe_dateLe a b (hr htie)
  · subst h
    have e : sort_tracks "descending" tracks = sortedTracksWith true tracks := rfl
    rw [e]
    obtain ⟨m1, m2⟩ := main true
    refine ⟨m1, m2, ?_⟩
    refine m2.imp ?_
    intro a b hr htie
    exact trackKeyLe_dateLe b a (hr htie)

/-- Witness for C3: the sort invariant instantiated at the descending mode
and a concrete mixed single/album track list. -/
theorem sort_tracks_type_groups_and_dates_witness :
    (((sort_tracks "descending"
        [⟨"t1", "Ar", "Al", "album", ⟨2024, 3, 10⟩, "u", "T1"⟩,
         ⟨"t2", "Br", "Bl", "single", ⟨2024, 3, 12⟩, "u", "T2"⟩]).Pairwise (fun a b =>
      ¬(a.album_type = "album" ∧ b.album_type = "single"))) ∧
    ((sort_tracks "descending"
        [⟨"t1", "Ar", "Al", "album", ⟨2024, 3, 10⟩, "u", "T1"⟩,
         ⟨"t2", "Br", "Bl", "single", ⟨2024, 3, 12⟩, "u", "T2"⟩]).Pairwise (fun a b =>
      lowerStr a.album_type = lowerStr b.album_type →
        (if ("descending" : String) = "ascending" then trackKeyLe a b else trackKeyLe b a) = true)) ∧
    ((sort_tracks "descending"
        [⟨"t1", "Ar", "Al", "album", ⟨2024, 3, 10⟩, "u", "T1"⟩,
         ⟨"t2", "Br", "Bl", "single", ⟨2024, 3, 12⟩, "u", "T2"⟩]).Pairwise (fun a b =>
      lowerStr a.album_type = lowerStr b.album_type →
        (if ("descending" : String) = "ascending" then dateLe a.release_date b.release_date
         else dateLe b.release_date a.release_date) = true))) :=
  sort_tracks_type_groups_and_dates "descending"
    [⟨"t1", "Ar", "Al", "album", ⟨2024, 3, 10⟩, "u", "T1"⟩,
     ⟨"t2", "Br", "Bl", "single", ⟨2024, 3, 12⟩, "u", "T2"⟩] (Or.inr rfl)

/-- C4: the threshold date equals `today - days` when `days > 0`; when
`days == 0` it equals `today - (((weekday(today) - 4) mod 7) + 7)` with a
non-negative modulo, so a Friday run reaches back 7 days and the following
Monday's run reaches back 10 days. -/
theorem get_threshold_date_formula (today days : Int) :
    (0 < days → get_threshold_date today days = today - days) ∧
    (days = 0 → get_threshold_date today days =
      today - (((weekday today - 4) % 7) + 7)) ∧
    (days = 0 → weekday today = 4 → get_threshold_date today days = today - 7) ∧
    (days = 0 → weekday today = 0 → get_threshold_date today days = today - 10) := by
  refine ⟨?_, ?_, ?_, ?_⟩
  · intro h
    have hne : days ≠ 0 := by omega
    simp [get_threshold_date, effectiveDays, hne]
  · intro h
    subst h
    simp [get_threshold_date, effectiveDays]
  · intro h h4
    subst h
    simp only [get_threshold_date, effectiveDays, if_pos rfl, h4]
    norm_num
  · intro h h0
    subst h
    simp only [get_threshold_date, effectiveDays, if_pos rfl, h0]
    norm_num

/-- Witness for C4: ordinal 5 is a Friday, ordinal 8 the following Monday. -/
theorem get_threshold_date_formula_witness :
    (get_threshold_date 5 3 = 5 - 3) ∧ (get_threshold_date 5 0 = 5 - 7) ∧
    (get_threshold_date 8 0 = 8 - 10) :=
  ⟨(get_threshold_date_formula 5 3).1 (by decide),
   (get_threshold_date_formula 5 0).2.2.1 rfl (by decide),
   (get_threshold_date_formula 8 0).2.2.2 rfl (by decide)⟩

theorem strptimeYM_day (s : String) (r : Date) (h : strptimeYM s = some r) :
    r.day = 1 := by
  unfold strptimeYM at h
  split at h
  · simp only [Option.bind_eq_bind', Option.bind_eq_some] at h
    obtain ⟨y, hy, m, hm, hmk⟩ := h
    unfold mkDate at hmk
    split at hmk
    · cases hmk
      rfl
    · exact Option.noConfusion hmk
  · exact Option.noConfusion h

theorem strptimeY_month_day (s : String) (r : Date) (h : strptimeY s = some r) :
    r.month = 1 ∧ r.day = 1 := by
  unfold strptimeY at h
  split at h
  · simp only [Option.bind_eq_bind', Option.bind_eq_some] at h
    obtain ⟨y, hy, hmk⟩ := h
    unfold mkDate at hmk
    split at hmk
    · cases hmk
      exact ⟨rfl, rfl⟩
    · exact Option.noConfusion hmk
  · exact Option.noConfusion h

/-- C5: release-date resolution by precision: `month` always resolves to the
first day of the month and `year` to January 1; on the spec's examples,
`("2024-03", "month")` is March 1 2024, `("2024", "year")` is
January 1 2024, and `("2024-03-15", "day")` is the exact date
March 15 2024. -/
theorem release_date_resolution :
    (∀ (s : String) (r : Date),
      resolve_release_date s "month" = some (some r) → r.day = 1) ∧
    (∀ (s : String) (r : Date),
      resolve_release_date s "year" = some (some r) → r.month = 1 ∧ r.day = 1) ∧
    resolve_release_date "2024-03" "month" = some (some ⟨2024, 3, 1⟩) ∧
    resolve_release_date "2024" "year" = some (some ⟨2024, 1, 1⟩) ∧
    resolve_release_date "2024-03-15" "day" = some (some ⟨2024, 3, 15⟩) := by
  refine ⟨?_, ?_, by decide, by decide, by decide⟩
  · intro s r h
    have e : resolve_release_date s "month" = (strptimeYM s).map some := rfl
    rw [e] at h
    cases hs : strptimeYM s with
    | none => rw [hs] at h; exact Option.noConfusion h
    | some d =>
      rw [hs] at h
      simp only [Option.map_some'] at h
      injection h with h1
      injection h1 with h2
      subst h2
      exact strptimeYM_day s d hs
  · intro s r h
    have e : resolve_release_date s "year" = (strptimeY s).map some := rfl
    rw [e] at h
    cases hs : strptimeY s with
    | none => rw [hs] at h; exact Option.noConfusion h
    | some d =>
      rw [hs] at h
      simp only [Option.map_some'] at h
      injection h with h1
      injection h1 with h2
      subst h2
      exact strptimeY_month_day s d hs

/-- Witness for C5: the month and year rules applied to concrete strings. -/
theorem release_date_resolution_witness :
    ((⟨2025, 7, 1⟩ : Date).day = 1) ∧
    ((⟨2025, 1, 1⟩ : Date).month = 1 ∧ (⟨2025, 1, 1⟩ : Date).day = 1) :=
  ⟨release_date_resolution.1 "2025-07" ⟨2025, 7, 1⟩ (by decide),
   release_date_resolution.2.1 "2025" ⟨2025, 1, 1⟩ (by decide)⟩

/-- One loop iteration either leaves the visited set unchanged (skip) or
appends exactly the current album id. -/
theorem processAlbum_searched (f : String → List TrackItem) (t : Date)
    (st : GNTState) (al : Album) (st' : GNTState)
    (h : processAlbum f t st al = Except.ok st') :
    st'.searched_ids = st.searched_ids ∨
      st'.searched_ids = st.searched_ids ++ [al.id] := by
  unfold processAlbum at h
  split at h
  · cases h; exact Or.inl rfl
  · split at h
    · cases h; exact Or.inl rfl
    · split at h
      · cases h; exact Or.inl rfl
      · split at h
        · exact Except.noConfusion h
        · split at h
          · exact Except.noConfusion h
          · split at h
            · cases h; exact Or.inr rfl
            · cases h; exact Or.inr rfl

/-- `Except.ok` on the left of a bind reduces. -/
theorem except_ok_bind {ε α β : Type} (a : α) (g : α → Except ε β) :
    (Except.ok a >>= g) = g a := rfl

/-- `Except.error` on the left of a bind reduces. -/
theorem except_error_bind {ε α β : Type} (e : ε) (g : α → Except ε β) :
    ((Except.error e : Except ε α) >>= g) = Except.error e := rfl

/-- Membership gives `List.contains` for strings. -/
theorem contains_of_mem {l : List String} {x : String} (h : x ∈ l) :
    l.contains x = true := by
  simpa [List.contains] using List.elem_eq_true_of_mem h

/-- `List.contains` gives membership for strings. -/
theorem mem_of_contains {l : List String} {x : String} (h : l.contains x = true) :
    x ∈ l := by
  refine List.elem_iff.mp ?_
  simpa [List.contains] using h

/-- An album that passes the compilation and name filters has its id in the
visited set after its loop iteration (lines 341-343). -/
theorem processAlbum_inserts (f : String → List TrackItem) (t : Date)
    (st : GNTState) (al : Album) (st' : GNTState)
    (hc : al.album_type ≠ "compilation") (hn : navidNamed al.name = false)
    (h : processAlbum f t st al = Except.ok st') :
    al.id ∈ st'.searched_ids := by
  unfold processAlbum at h
  rw [if_neg hc] at h
  rw [if_neg (by simp [hn])] at h
  split at h
  next hcon =>
    cases h
    exact mem_of_contains hcon
  next hcon =>
    split at h
    · exact Except.noConfusion h
    · split at h
      · exact Except.noConfusion h
      · split at h
        · cases h; simp
        · cases h; simp

/-- An album whose id is already in the visited set is skipped with the
state unchanged (line 342). -/
theorem processAlbum_skip_searched (f : String → List TrackItem) (t : Date)
    (st : GNTState) (al : Album)
    (hc : al.album_type ≠ "compilation") (hn : navidNamed al.name = false)
    (hm : al.id ∈ st.searched_ids) :
    processAlbum f t st al = Except.ok st := by
  unfold processAlbum
  rw [if_neg hc, if_neg (by simp [hn]), if_pos (contains_of_mem hm)]

/-- The visited set only grows along the album loop. -/
theorem foldlM_searched_mono (f : String → List TrackItem) (t : Date)
    (l : List Album) (st st' : GNTState) (x : String)
    (h : l.foldlM (processAlbum f t) st = Except.ok st')
    (hx : x ∈ st.searched_ids) : x ∈ st'.searched_ids := by
  induction l generalizing st with
  | nil =>
    simp only [List.foldlM_nil] at h
    cases h
    exact hx
  | cons al rest ih =>
    rw [List.foldlM_cons] at h
    cases hpa : processAlbum f t st al with
    | error e =>
      rw [hpa, except_error_bind] at h
      exact Except.noConfusion h
    | ok st1 =>
      rw [hpa, except_ok_bind] at h
      refine ih st1 h ?_
      rcases processAlbum_searched f t st al st1 hpa with he | he
      · rw [he]; exact hx
      · rw [he]; exact List.mem_append_left _ hx

/-- C2: an album reachable twice in the traversal stream (two artists
credited on the same album id) is expanded at most once: deleting the later
duplicate occurrence (same album id, not skipped by the compilation or name
filters) leaves the entire run state — in particular the accumulated track
list — unchanged, so its tracks appear exactly once. -/
theorem album_expanded_at_most_once (f : String → List TrackItem) (t : Date)
    (xs ys zs : List Album) (a dup : Album)
    (hid : dup.id = a.id)
    (hac : a.album_type ≠ "compilation") (han : navidNamed a.name = false)
    (hdc : dup.album_type ≠ "compilation") (hdn : navidNamed dup.name = false) :
    runGNT f t (xs ++ a :: (ys ++ dup :: zs)) = runGNT f t (xs ++ a :: (ys ++ zs)) := by
  unfold runGNT
  rw [List.foldlM_append, List.foldlM_append]
  cases h0 : xs.foldlM (processAlbum f t) ⟨[], [], [], none⟩ with
  | error e => rw [except_error_bind, except_error_bind]
  | ok st0 =>
    rw [except_ok_bind, except_ok_bind, List.foldlM_cons, List.foldlM_cons]
    cases h1 : processAlbum f t st0 a with
    | error e => rw [except_error_bind, except_error_bind]
    | ok st1 =>
      rw [except_ok_bind, except_ok_bind, List.foldlM_append, List.foldlM_append]
      cases h2 : ys.foldlM (processAlbum f t) st1 with
      | error e => rw [except_error_bind, except_error_bind]
      | ok st2 =>
        rw [except_ok_bind, except_ok_bind, List.foldlM_cons]
        have hmem : a.id ∈ st2.searched_ids :=
          foldlM_searched_mono f t ys st1 st2 a.id h2
            (processAlbum_inserts f t st0 a st1 hac han h1)
        have hskip : processAlbum f t st2 dup = Except.ok st2 :=
          processAlbum_skip_searched f t st2 dup hdc hdn (hid ▸ hmem)
        rw [hskip, except_ok_bind]

/-- Witness for C2: a run where the same album id "A1" is reached twice
equals the run where it is reached once. -/
theorem album_expanded_at_most_once_witness :
    runGNT (fun _ => [⟨"Song", "Artist", "u", "T"⟩]) ⟨2024, 3, 1⟩
        ([] ++ ⟨"A1", "Alpha", "album", "2024-03-15", "day"⟩ ::
          ([] ++ ⟨"A1", "Alpha Deluxe", "album", "2024-03-15", "day"⟩ :: [])) =
      runGNT (fun _ => [⟨"Song", "Artist", "u", "T"⟩]) ⟨2024, 3, 1⟩
        ([] ++ ⟨"A1", "Alpha", "album", "2024-03-15", "day"⟩ :: ([] ++ [])) :=
  album_expanded_at_most_once (fun _ => [⟨"Song", "Artist", "u", "T"⟩]) ⟨2024, 3, 1⟩
    [] [] [] ⟨"A1", "Alpha", "album", "2024-03-15", "day"⟩
    ⟨"A1", "Alpha Deluxe", "album", "2024-03-15", "day"⟩
    rfl (by decide) (by decide) (by decide) (by decide)

/-- C6 (amended): for every non-compilation, not-yet-visited album whose name
does not contain "navid" case-insensitively and whose release date resolves,
its tracks enter the accumulated list if and only if the resolved release
date is on or after the threshold date; in particular an album dated exactly
on the threshold date satisfies the comparison. -/
theorem album_inclusion_iff_threshold (f : String → List TrackItem) (t : Date)
    (st : GNTState) (al : Album) (rd : Date)
    (hc : al.album_type ≠ "compilation") (hn : navidNamed al.name = false)
    (hv : al.id ∉ st.searched_ids)
    (hr : resolve_release_date al.release_date al.release_date_precision =
      some (some rd)) :
    ((processAlbum f t st al).map GNTState.new_tracks =
      Except.ok (st.new_tracks ++
        (if dateLe t rd = true
         then (expandAlbumTracks al rd (f al.id) st.added_ids).2 else []))) ∧
    (rd = t → dateLe t rd = true) := by
  constructor
  · unfold processAlbum
    rw [if_neg hc, if_neg (by simp [hn]),
      if_neg (fun hcon => hv (mem_of_contains hcon)), hr]
    cases hdl : dateLe t rd with
    | true =>
      simp only [hdl, if_pos]
      rfl
    | false =>
      simp [hdl]
      rfl
  · intro he
    rw [he]
    exact dateLe_refl t

/-- C7 (amended): the visited set is checked-then-inserted before the date
evaluation, so a too-old album (non-compilation, non-"navid", unvisited,
resolved date strictly before the threshold) is still marked visited while
contributing no tracks; a compilation-type album, however, is skipped before
the visited check and leaves the state — including the visited set —
unchanged. -/
theorem visited_marking (f : String → List TrackItem) (t : Date)
    (st : GNTState) (al : Album) (rd : Date) :
    (al.album_type ≠ "compilation" → navidNamed al.name = false →
      al.id ∉ st.searched_ids →
      resolve_release_date al.release_date al.release_date_precision =
        some (some rd) →
      dateLe t rd = false →
      processAlbum f t st al =
        Except.ok ⟨st.new_tracks, st.searched_ids ++ [al.id], st.added_ids, some rd⟩) ∧
    (al.album_type = "compilation" → processAlbum f t st al = Except.ok st) := by
  constructor
  · intro hc hn hv hr hold
    unfold processAlbum
    rw [if_neg hc, if_neg (by simp [hn]),
      if_neg (fun hcon => hv (mem_of_contains hcon)), hr]
    simp [hold]
  · intro hc
    unfold processAlbum
    rw [if_pos hc]

/-- C10: an album whose lowercased name contains "navid" is skipped: the
loop state is returned unchanged — no tracks are produced and its id is not
added to the visited set — regardless of album type, visited status or
release date. -/
theorem navid_album_skipped (f : String → List TrackItem) (t : Date)
    (st : GNTState) (al : Album) (h : navidNamed al.name = true) :
    processAlbum f t st al = Except.ok st := by
  unfold processAlbum
  by_cases hc : al.album_type = "compilation"
  · rw [if_pos hc]
  · rw [if_neg hc, if_pos h]

/-- Counterexample for C7: a compilation album is skipped without being
marked visited — after a run over exactly one compilation album the visited
set is empty, while the claim requires it to contain the album id. -/
theorem compilation_album_not_marked_visited :
    (runGNT (fun _ => [⟨"Song", "Artist", "u", "T"⟩]) ⟨2024, 3, 1⟩
        [⟨"C9", "Best Of", "compilation", "2024-03-15", "day"⟩]).map
      GNTState.searched_ids = Except.ok [] ∧
    ("C9" : String) ∉ ([] : List String) :=
  ⟨rfl, by simp⟩

/-- Counterexample for C6: a non-compilation, unvisited album named
"Navidad" with resolved release date on or after the threshold, whose detail
fetch returns a track, still contributes no tracks — refuting the claimed
"if" direction. -/
theorem navid_album_on_threshold_excluded :
    (runGNT (fun _ => [⟨"Cancion", "Artista", "u", "T"⟩]) ⟨2024, 3, 1⟩
        [⟨"N1", "Navidad", "album", "2024-03-15", "day"⟩]).map
      GNTState.new_tracks = Except.ok [] ∧
    ("album" : String) ≠ "compilation" ∧
    resolve_release_date "2024-03-15" "day" = some (some ⟨2024, 3, 15⟩) ∧
    dateLe ⟨2024, 3, 1⟩ ⟨2024, 3, 15⟩ = true ∧
    ((fun _ => [⟨"Cancion", "Artista", "u", "T"⟩] : String → List TrackItem) "N1" ≠ []) :=
  ⟨rfl, by decide, by decide, by decide, by simp⟩

/-- C8: when the final track list is empty, the final phase of `main` only
logs an info-level message: it performs no CSV write, no playlist item
replacement and no details update, and raises no exception (the result is
`Except.ok`, distinct from the `Except.error` failure channel). -/
theorem empty_tracklist_no_mutation (dry_run has_playlist_id : Bool) :
    main_finalize dry_run has_playlist_id [] =
      Except.ok [Effect.logInfo "No new tracks found. Playlist not updated."] ∧
    (∀ ids : List String,
      Effect.replaceItems ids ∉
        [Effect.logInfo "No new tracks found. Playlist not updated."]) ∧
    Effect.changeDetails ∉
      [Effect.logInfo "No new tracks found. Playlist not updated."] ∧
    Effect.writeCsv ∉
      [Effect.logInfo "No new tracks found. Playlist not updated."] := by
  refine ⟨rfl, ?_, by simp, by simp⟩
  intro ids
  simp

/-- Witness for C6: the amended inclusion rule at an album dated exactly on
the threshold date (the boundary case). -/
theorem album_inclusion_iff_threshold_witness :
    ((processAlbum (fun _ => [⟨"Song", "Artist", "u", "T"⟩]) ⟨2024, 3, 15⟩
        ⟨[], [], [], none⟩ ⟨"A1", "Alpha", "album", "2024-03-15", "day"⟩).map
      GNTState.new_tracks =
      Except.ok (([] : List Song) ++
        (if dateLe ⟨2024, 3, 15⟩ ⟨2024, 3, 15⟩ = true
         then (expandAlbumTracks ⟨"A1", "Alpha", "album", "2024-03-15", "day"⟩
            ⟨2024, 3, 15⟩ [⟨"Song", "Artist", "u", "T"⟩] []).2 else []))) ∧
    ((⟨2024, 3, 15⟩ : Date) = ⟨2024, 3, 15⟩ →
      dateLe ⟨2024, 3, 15⟩ ⟨2024, 3, 15⟩ = true) :=
  album_inclusion_iff_threshold (fun _ => [⟨"Song", "Artist", "u", "T"⟩])
    ⟨2024, 3, 15⟩ ⟨[], [], [], none⟩ ⟨"A1", "Alpha", "album", "2024-03-15", "day"⟩
    ⟨2024, 3, 15⟩ (by decide) (by decide) (by simp) (by decide)

/-- Witness for C7: a too-old album is marked visited; a compilation album is
not. -/
theorem visited_marking_witness :
    processAlbum (fun _ => [⟨"Song", "Artist", "u", "T"⟩]) ⟨2024, 3, 20⟩
      ⟨[], [], [], none⟩ ⟨"A1", "Alpha", "album", "2024-03-15", "day"⟩ =
      Except.ok ⟨[], ["A1"], [], some ⟨2024, 3, 15⟩⟩ ∧
    processAlbum (fun _ => [⟨"Song", "Artist", "u", "T"⟩]) ⟨2024, 3, 20⟩
      ⟨[], [], [], none⟩ ⟨"C9", "Best Of", "compilation", "2024-03-15", "day"⟩ =
      Except.ok ⟨[], [], [], none⟩ :=
  ⟨(visited_marking (fun _ => [⟨"Song", "Artist", "u", "T"⟩]) ⟨2024, 3, 20⟩
      ⟨[], [], [], none⟩ ⟨"A1", "Alpha", "album", "2024-03-15", "day"⟩
      ⟨2024, 3, 15⟩).1 (by decide) (by decide) (by simp) (by decide) (by decide),
   (visited_marking (fun _ => [⟨"Song", "Artist", "u", "T"⟩]) ⟨2024, 3, 20⟩
      ⟨[], [], [], none⟩ ⟨"C9", "Best Of", "compilation", "2024-03-15", "day"⟩
      ⟨2024, 3, 15⟩).2 rfl⟩

/-- Witness for C10: a christmas-named album is skipped with the state
unchanged. -/
theorem navid_album_skipped_witness :
    processAlbum (fun _ => [⟨"Song", "Artist", "u", "T"⟩]) ⟨2024, 3, 1⟩
      ⟨[], [], [], none⟩ ⟨"N2", "Feliz NAVIDAD 2024", "single", "2024-03-15", "day"⟩ =
      Except.ok ⟨[], [], [], none⟩ :=
  navid_album_skipped (fun _ => [⟨"Song", "Artist", "u", "T"⟩]) ⟨2024, 3, 1⟩
    ⟨[], [], [], none⟩ ⟨"N2", "Feliz NAVIDAD 2024", "single", "2024-03-15", "day"⟩
    (by decide)

/-- C1 (evaluation at the failing input): two qualifying albums with distinct
album ids share the track id "T"; the run appends a song row for each
occurrence, and the id list handed to the playlist replacement is
["T", "T"] — the duplicate is not removed, although `added_ids` is
maintained for exactly this purpose and never consulted. -/
theorem duplicate_track_ids_reach_playlist :
    (get_new_tracks (fun _ => [⟨"Song", "Artist", "u", "T"⟩]) ⟨2024, 3, 1⟩
        [⟨"A1", "Alpha", "album", "2024-03-15", "day"⟩,
         ⟨"A2", "Beta", "album", "2024-03-15", "day"⟩]).map
      (fun l => update_playlist_track_ids (sort_tracks "descending" l)) =
      Except.ok ["T", "T"] := by
  have h : get_new_tracks (fun _ => [⟨"Song", "Artist", "u", "T"⟩]) ⟨2024, 3, 1⟩
      [⟨"A1", "Alpha", "album", "2024-03-15", "day"⟩,
       ⟨"A2", "Beta", "album", "2024-03-15", "day"⟩] =
      Except.ok [⟨"Song", "Artist", "Alpha", "album", ⟨2024, 3, 15⟩, "u", "T"⟩,
        ⟨"Song", "Artist", "Beta", "album", ⟨2024, 3, 15⟩, "u", "T"⟩] := rfl
  rw [h]
  simp +decide [sort_tracks, sortedTracksWith, update_playlist_track_ids,
    List.mergeSort, List.splitInTwo, List.splitAt, List.splitAt.go, List.merge,
    Except.map]

/-- Counterexample for C9: with one short search page listing artist "b"
before artist "a", the page concatenation keeps that order, but the cohort
returned for traversal is the case-insensitively sorted list — not the
concatenation in returned order. -/
theorem traversal_cohort_not_in_page_order :
    get_artists [[⟨"b", "ub", "1"⟩, ⟨"a", "ua", "2"⟩]] =
      [⟨"a", "ua", "2"⟩, ⟨"b", "ub", "1"⟩] ∧
    (collectArtistPages [[⟨"b", "ub", "1"⟩, ⟨"a", "ua", "2"⟩]]).map mkArtistRecord =
      [⟨"b", "ub", "1"⟩, ⟨"a", "ua", "2"⟩] ∧
    get_artists [[⟨"b", "ub", "1"⟩, ⟨"a", "ua", "2"⟩]] ≠
      (collectArtistPages [[⟨"b", "ub", "1"⟩, ⟨"a", "ua", "2"⟩]]).map mkArtistRecord := by
  have e1 : get_artists [[⟨"b", "ub", "1"⟩, ⟨"a", "ua", "2"⟩]] =
      [⟨"a", "ua", "2"⟩, ⟨"b", "ub", "1"⟩] := by
    simp [get_artists, collectArtistPages, mkArtistRecord, stripQuotes,
      List.mergeSort, List.splitInTwo, List.splitAt, List.splitAt.go, List.merge]
    all_goals decide
  have e2 : (collectArtistPages [[⟨"b", "ub", "1"⟩, ⟨"a", "ua", "2"⟩]]).map
      mkArtistRecord = [⟨"b", "ub", "1"⟩, ⟨"a", "ua", "2"⟩] := rfl
  refine ⟨e1, e2, ?_⟩
  rw [e1, e2]
  decide

/-- C9 (amended): the cohort handed to traversal is the same
case-insensitively sorted list that is persisted to the snapshot file: it is
sorted by lowercased artist name and is a permutation of the concatenation
of all consumed result pages. -/
theorem traversal_cohort_eq_sorted_snapshot (pages : List (List ArtistItem)) :
    get_artists pages = artists_snapshot_rows pages ∧
    (get_artists pages).Pairwise (fun a b => artistNameLe a b = true) ∧
    List.Perm (get_artists pages) ((collectArtistPages pages).map mkArtistRecord) := by
  refine ⟨rfl, ?_, ?_⟩
  · apply List.sorted_mergeSort
    · exact artistNameLe_trans
    · intro a b
      rcases artistNameLe_total a b with h | h <;> simp [h]
  · exact List.mergeSort_perm _ _
